import Mathlib

/-!
Verification development for the johnbot2 repository: the phototaxis control
law of the host controller, the robot firmware's OSC message handlers and
sensor-report loop, and the host's per-robot session/liveness manager.

Numeric values are modelled in exact arithmetic: the host side (Python
floats) over the rationals, the firmware side (C ints) over the integers.
-/

namespace Johnbot2

/-! ## Control law (host side)

Modelled from the spec: the host controller source johnbot2_controller.py is
absent from the repository snapshot; the control-law equations are those of
spec section 4.1, which coincide exactly with the formulas documented in
src/software/README.md (Relation to the Paper). -/

/-- Modelled from the spec: fixed sigmoid sharpness, alpha = 8. -/
def alpha : ℕ := 8

/-- Modelled from the spec: fixed maximal motor command, Mmax = 200. -/
def Mmax : ℚ := 200

/-- Modelled from the spec: sigma(x, alpha) = x^alpha / (x^alpha + (1-x)^alpha). -/
def sigma (x : ℚ) : ℚ := x ^ alpha / (x ^ alpha + (1 - x) ^ alpha)

/-- Modelled from the spec: r_hat_L = (S_R + 1) / (S_L + S_R + 2). -/
def rhatL (sl sr : ℚ) : ℚ := (sr + 1) / (sl + sr + 2)

/-- Modelled from the spec: r_hat_R = (S_L + 1) / (S_L + S_R + 2). -/
def rhatR (sl sr : ℚ) : ℚ := (sl + 1) / (sl + sr + 2)

/-- Modelled from the spec: M_L = Mmax * sigma(r_hat_L, alpha). -/
def ML (sl sr : ℚ) : ℚ := Mmax * sigma (rhatL sl sr)

/-- Modelled from the spec: M_R = Mmax * sigma(r_hat_R, alpha). -/
def MR (sl sr : ℚ) : ℚ := Mmax * sigma (rhatR sl sr)

/-! ### Helper lemmas about the sigmoid -/

lemma sigma_denom_pos (x : ℚ) : 0 < x ^ alpha + (1 - x) ^ alpha := by
  by_cases hx : x = 0
  · simp [hx, alpha]
  · have h1 : 0 < x ^ alpha := by
      have hne : x ^ alpha ≠ 0 := pow_ne_zero _ hx
      have hnn : 0 ≤ x ^ alpha := by
        have h4 : x ^ alpha = (x ^ 4) ^ 2 := by
          rw [show alpha = 4 * 2 from rfl, pow_mul]
        rw [h4]
        exact sq_nonneg _
      exact lt_of_le_of_ne hnn (Ne.symm hne)
    have h2 : 0 ≤ (1 - x) ^ alpha := by
      have h4 : (1 - x) ^ alpha = ((1 - x) ^ 4) ^ 2 := by
        rw [show alpha = 4 * 2 from rfl, pow_mul]
      rw [h4]
      exact sq_nonneg _
    linarith

lemma sigma_half : sigma (1 / 2) = 1 / 2 := by
  norm_num [sigma, alpha]

lemma sigma_strict_mono {x y : ℚ} (hx : 0 ≤ x) (hxy : x < y) (hy : y ≤ 1) :
    sigma x < sigma y := by
  have hdx := sigma_denom_pos x
  have hdy := sigma_denom_pos y
  rw [sigma, sigma, div_lt_div_iff₀ hdx hdy]
  have key : (x * (1 - y)) ^ alpha < (y * (1 - x)) ^ alpha := by
    have hlt : x * (1 - y) < y * (1 - x) := by nlinarith
    have hnn : 0 ≤ x * (1 - y) := mul_nonneg hx (by linarith)
    exact pow_lt_pow_left₀ hlt hnn (by norm_num [alpha])
  calc x ^ alpha * (y ^ alpha + (1 - y) ^ alpha)
      = x ^ alpha * y ^ alpha + (x * (1 - y)) ^ alpha := by
        rw [mul_pow]; ring
    _ < x ^ alpha * y ^ alpha + (y * (1 - x)) ^ alpha :=
        add_lt_add_left key _
    _ = y ^ alpha * (x ^ alpha + (1 - x) ^ alpha) := by
        rw [mul_pow]; ring

lemma sigma_pos {x : ℚ} (hx : 0 < x) : 0 < sigma x := by
  have hd := sigma_denom_pos x
  have hn : 0 < x ^ alpha := pow_pos hx _
  exact div_pos hn hd

lemma sigma_lt_one {x : ℚ} (hx : x < 1) : sigma x < 1 := by
  have hd := sigma_denom_pos x
  rw [sigma, div_lt_one hd]
  have h2 : 0 < (1 - x) ^ alpha := pow_pos (by linarith) _
  linarith

lemma rhatL_mem {sl sr : ℚ} (hl : -1 < sl) (hr : -1 < sr) :
    0 < rhatL sl sr ∧ rhatL sl sr < 1 := by
  have hden : 0 < sl + sr + 2 := by linarith
  constructor
  · exact div_pos (by linarith) hden
  · rw [rhatL, div_lt_one hden]; linarith

lemma rhatR_mem {sl sr : ℚ} (hl : -1 < sl) (hr : -1 < sr) :
    0 < rhatR sl sr ∧ rhatR sl sr < 1 := by
  have hden : 0 < sl + sr + 2 := by linarith
  constructor
  · exact div_pos (by linarith) hden
  · rw [rhatR, div_lt_one hden]; linarith

end Johnbot2

namespace Johnbot2

/-! ### Claims about the control law -/

/-- C1: for every input pair with S_L = S_R = x (any x >= 0), the control
law returns equal motor commands M_L = M_R = Mmax/2 = 100 exactly. -/
theorem control_law_symmetric (x : ℚ) (hx : 0 ≤ x) :
    ML x x = 100 ∧ MR x x = 100 := by
  have hne : x + x + 2 ≠ 0 := by positivity
  have hL : rhatL x x = 1 / 2 := by
    rw [rhatL, div_eq_div_iff hne (by norm_num)]; ring
  have hR : rhatR x x = 1 / 2 := by
    rw [rhatR, div_eq_div_iff hne (by norm_num)]; ring
  constructor
  · rw [ML, hL, sigma_half, Mmax]; norm_num
  · rw [MR, hR, sigma_half, Mmax]; norm_num

/-- C1 witness: the input (0,0) yields the command (100,100). -/
theorem control_law_symmetric_witness : ML 0 0 = 100 ∧ MR 0 0 = 100 :=
  control_law_symmetric 0 (le_refl 0)

/-- C2 counterexample: at (S_L, S_R) = (1, 0) we have S_L > S_R >= 0 yet
the control law does NOT return M_L > M_R (it returns M_L < M_R: the
ratio r_hat_L is built from S_R, so the brighter left sensor drives the
right motor harder). -/
theorem brighter_side_counterexample : ¬ (MR 1 0 < ML 1 0) := by
  norm_num [ML, MR, sigma, rhatL, rhatR, Mmax, alpha]

/-- C2 amended: for every input pair with S_L > S_R >= 0, the control law
returns M_R > M_L — the motor contralateral to the brighter sensor is
driven harder (the formulas cross the sensors: r_hat_L uses S_R). -/
theorem brighter_side_drives_contralateral (sl sr : ℚ)
    (hr : 0 ≤ sr) (hlt : sr < sl) :
    ML sl sr < MR sl sr := by
  have hl : -1 < sl := by linarith
  have hr1 : -1 < sr := by linarith
  have hmemL := rhatL_mem hl hr1
  have hmemR := rhatR_mem hl hr1
  have hden : 0 < sl + sr + 2 := by linarith
  have hrr : rhatL sl sr < rhatR sl sr := by
    rw [rhatL, rhatR]
    exact (div_lt_div_iff_of_pos_right hden).mpr (by linarith)
  have hsig : sigma (rhatL sl sr) < sigma (rhatR sl sr) :=
    sigma_strict_mono hmemL.1.le hrr hmemR.2.le
  have hM : (0 : ℚ) < Mmax := by norm_num [Mmax]
  exact mul_lt_mul_of_pos_left hsig hM

/-- C2 amended witness: at (1, 0) the right motor command exceeds the left. -/
theorem brighter_side_drives_contralateral_witness : ML 1 0 < MR 1 0 :=
  brighter_side_drives_contralateral 1 0 (le_refl 0) zero_lt_one

/-- C3 counterexample: the input pair (0, -1) is finite, yet the control law
returns M_L = 0, which is not strictly inside (0, 200): r_hat_L collapses to
0 there, so totality over ALL finite inputs fails as stated. -/
theorem outputs_open_interval_counterexample : ¬ (0 < ML 0 (-1)) := by
  norm_num [ML, sigma, rhatL, Mmax, alpha]

/-- C3 amended: for every input pair with both readings > -1 (in particular
all nonnegative sensor readings), the control law is total and both outputs
lie strictly inside the open interval (0, 200). -/
theorem outputs_open_interval (sl sr : ℚ) (hl : -1 < sl) (hr : -1 < sr) :
    (0 < ML sl sr ∧ ML sl sr < 200) ∧ (0 < MR sl sr ∧ MR sl sr < 200) := by
  have hmemL := rhatL_mem hl hr
  have hmemR := rhatR_mem hl hr
  have hsL1 : 0 < sigma (rhatL sl sr) := sigma_pos hmemL.1
  have hsL2 : sigma (rhatL sl sr) < 1 := sigma_lt_one hmemL.2
  have hsR1 : 0 < sigma (rhatR sl sr) := sigma_pos hmemR.1
  have hsR2 : sigma (rhatR sl sr) < 1 := sigma_lt_one hmemR.2
  rw [ML, MR, Mmax]
  constructor
  · constructor
    · positivity
    · nlinarith
  · constructor
    · positivity
    · nlinarith

/-- C3 amended witness: at the input (0, 0) both outputs are in (0, 200). -/
theorem outputs_open_interval_witness :
    (0 < ML 0 0 ∧ ML 0 0 < 200) ∧ (0 < MR 0 0 ∧ MR 0 0 < 200) :=
  outputs_open_interval 0 0 neg_one_lt_zero neg_one_lt_zero

/-- C4: the sigmoid with alpha = 8 satisfies sigma(0.5) = 0.5 exactly, and
is strictly increasing on the interval [0, 1]. -/
theorem sigma_fixed_point_and_increasing :
    sigma (1 / 2) = 1 / 2 ∧
      ∀ x y : ℚ, 0 ≤ x → x < y → y ≤ 1 → sigma x < sigma y :=
  ⟨sigma_half, fun _ _ hx hxy hy => sigma_strict_mono hx hxy hy⟩

/-- C4 witness: the strict monotonicity instantiated at x = 0, y = 1. -/
theorem sigma_fixed_point_and_increasing_witness : sigma 0 < sigma 1 :=
  sigma_fixed_point_and_increasing.2 0 1 (le_refl 0) zero_lt_one (le_refl 1)

/-! ## Robot firmware (src/farmware/johnbot2/johnbot2.ino)

Machine integers are modelled as ℤ. Note for the Arduino map: C integer
division truncates toward zero while ℤ division here is Euclidean; on the
nonnegative operands arising from the ADC range [0, 1023] used by the
firmware the two coincide. -/

/-- Arduino constrain(amt, low, high): amt below low yields low, above high
yields high, otherwise amt itself. -/
def constrain (amt low high : ℤ) : ℤ :=
  if amt < low then low else if high < amt then high else amt

/-- Arduino map(x, in_min, in_max, out_min, out_max): linear rescaling with
integer division. -/
def mapRange (x inMin inMax outMin outMax : ℤ) : ℤ :=
  (x - inMin) * (outMax - outMin) / (inMax - inMin) + outMin

/-- Output-pin latches of the robot: the two motor PWM pins and the three
LED pins, as last written by analogWrite. -/
structure RobotState where
  motorL : ℤ
  motorR : ℤ
  ledR : ℤ
  ledG : ℤ
  ledB : ℤ
deriving DecidableEq

/-- Handler subscribed to /motor: with at least 2 arguments it clamps the
first two to [0, 255] and writes them to the motor pins; otherwise it only
prints a diagnostic and leaves the pins untouched. Returns the new pin
state and the Serial log lines. -/
def handleMotor (st : RobotState) (args : List ℤ) : RobotState × List String :=
  if 2 ≤ args.length then
    let motorValueL := args.getD 0 0
    let motorValueR := args.getD 1 0
    ({ st with motorL := constrain motorValueL 0 255,
               motorR := constrain motorValueR 0 255 },
     ["Received OSC message: /motor",
      "Left motor: " ++ toString motorValueL,
      "Right motor: " ++ toString motorValueR])
  else
    (st, ["Received OSC message: /motor",
          "Invalid /motor message: not enough arguments."])

/-- Handler subscribed to /LED: with at least 3 arguments it clamps the
first three to [0, 255] and writes them to the LED pins; otherwise it only
prints a diagnostic and leaves the pins untouched. -/
def handleLED (st : RobotState) (args : List ℤ) : RobotState × List String :=
  if 3 ≤ args.length then
    let ledRV := args.getD 0 0
    let ledGV := args.getD 1 0
    let ledBV := args.getD 2 0
    ({ st with ledR := constrain ledRV 0 255,
               ledG := constrain ledGV 0 255,
               ledB := constrain ledBV 0 255 },
     ["Received OSC message: /LED",
      "LED R: " ++ toString ledRV ++ ", G: " ++ toString ledGV ++
        ", B: " ++ toString ledBV])
  else
    (st, ["Received OSC message: /LED",
          "Invalid /LED message: not enough arguments."])

/-- The /sensor report built in loop(): both raw ADC readings are rescaled
from [0, 1023] to [0, 255], and the message is sent with the RIGHT value as
first argument and the LEFT value as second, exactly as in the source call
OscWiFi.send(hostIP, outPort, "/sensor", sensorValueR, sensorValueL). -/
def sensorReport (rawR rawL : ℤ) : List ℤ :=
  [mapRange rawR 0 1023 0 255, mapRange rawL 0 1023 0 255]

lemma constrain_mem (x : ℤ) : 0 ≤ constrain x 0 255 ∧ constrain x 0 255 ≤ 255 := by
  unfold constrain
  split <;> [omega; skip]
  split <;> omega

end Johnbot2

namespace Johnbot2

/-! ### Claims about the firmware -/

/-- C5 counterexample: with raw right reading 1023 and raw left reading 0,
the sensor report's first argument is 255, not the left reading 0 — the
firmware sends the RIGHT reading first, refuting the claimed left-first
order. -/
theorem sensor_report_left_first_counterexample :
    ¬ ((sensorReport 1023 0).getD 0 0 = mapRange 0 0 1023 0 255) := by decide

/-- C5 amended: every sensor report carries the rescaled RIGHT reading as
the first argument and the rescaled LEFT reading as the second, and for raw
ADC readings in [0, 1023] each transmitted value is an integer in [0, 255]. -/
theorem sensor_report_order_and_range (rawR rawL : ℤ)
    (h1 : 0 ≤ rawR) (h2 : rawR ≤ 1023) (h3 : 0 ≤ rawL) (h4 : rawL ≤ 1023) :
    sensorReport rawR rawL =
      [mapRange rawR 0 1023 0 255, mapRange rawL 0 1023 0 255] ∧
    ∀ v ∈ sensorReport rawR rawL, 0 ≤ v ∧ v ≤ 255 := by
  refine ⟨rfl, ?_⟩
  have hR : 0 ≤ mapRange rawR 0 1023 0 255 ∧ mapRange rawR 0 1023 0 255 ≤ 255 := by
    unfold mapRange; omega
  have hL : 0 ≤ mapRange rawL 0 1023 0 255 ∧ mapRange rawL 0 1023 0 255 ≤ 255 := by
    unfold mapRange; omega
  intro v hv
  simp only [sensorReport, List.mem_cons, List.not_mem_nil, or_false] at hv
  rcases hv with rfl | rfl
  · exact hR
  · exact hL

/-- C5 amended witness: raw readings (1023, 0) produce the report [255, 0],
whose entries are in [0, 255]. -/
theorem sensor_report_order_and_range_witness :
    sensorReport 1023 0 = [mapRange 1023 0 1023 0 255, mapRange 0 0 1023 0 255] ∧
    ∀ v ∈ sensorReport 1023 0, 0 ≤ v ∧ v ≤ 255 :=
  sensor_report_order_and_range 1023 0 (by decide) (by decide) (by decide) (by decide)

/-- C6 counterexample: a /motor message with 3 arguments (more than 2) is
NOT dropped: the handler applies its first two arguments to the motor pins,
changing the state. -/
theorem wrong_arity_dropped_counterexample :
    ¬ ((handleMotor ⟨0, 0, 0, 0, 0⟩ [1, 2, 3]).1 = ⟨0, 0, 0, 0, 0⟩) := by decide

/-- C6 amended: a /motor message with fewer than 2 arguments, and a /LED
message with fewer than 3, is dropped with a diagnostic and leaves every
output pin unchanged; messages with extra arguments are accepted and
applied using the first required arguments. -/
theorem short_messages_dropped (st : RobotState) (margs largs : List ℤ)
    (hm : margs.length < 2) (hl : largs.length < 3) :
    ((handleMotor st margs).1 = st ∧
      "Invalid /motor message: not enough arguments." ∈ (handleMotor st margs).2) ∧
    ((handleLED st largs).1 = st ∧
      "Invalid /LED message: not enough arguments." ∈ (handleLED st largs).2) := by
  unfold handleMotor handleLED
  rw [if_neg (by omega), if_neg (by omega)]
  simp

/-- C6 amended witness: the one-argument /motor message [7] and the
two-argument /LED message [7, 8] are both dropped with the corresponding
diagnostic and the pin state of (1, 2, 3, 4, 5) is left unchanged. -/
theorem short_messages_dropped_witness :
    ((handleMotor ⟨1, 2, 3, 4, 5⟩ [7]).1 = ⟨1, 2, 3, 4, 5⟩ ∧
      "Invalid /motor message: not enough arguments." ∈
        (handleMotor ⟨1, 2, 3, 4, 5⟩ [7]).2) ∧
    ((handleLED ⟨1, 2, 3, 4, 5⟩ [7, 8]).1 = ⟨1, 2, 3, 4, 5⟩ ∧
      "Invalid /LED message: not enough arguments." ∈
        (handleLED ⟨1, 2, 3, 4, 5⟩ [7, 8]).2) :=
  short_messages_dropped ⟨1, 2, 3, 4, 5⟩ [7] [7, 8] (by decide) (by decide)

/-- C7: for every well-formed /motor command (at least 2 arguments) the two
motor pins receive exactly the clamp of the corresponding argument to
[0, 255], and likewise the three LED pins for a well-formed /LED command —
so every written pin value lies in [0, 255]. -/
theorem commands_clamped (st : RobotState) (margs largs : List ℤ)
    (hm : 2 ≤ margs.length) (hl : 3 ≤ largs.length) :
    ((handleMotor st margs).1.motorL = constrain (margs.getD 0 0) 0 255 ∧
      (handleMotor st margs).1.motorR = constrain (margs.getD 1 0) 0 255 ∧
      0 ≤ (handleMotor st margs).1.motorL ∧ (handleMotor st margs).1.motorL ≤ 255 ∧
      0 ≤ (handleMotor st margs).1.motorR ∧ (handleMotor st margs).1.motorR ≤ 255) ∧
    ((handleLED st largs).1.ledR = constrain (largs.getD 0 0) 0 255 ∧
      (handleLED st largs).1.ledG = constrain (largs.getD 1 0) 0 255 ∧
      (handleLED st largs).1.ledB = constrain (largs.getD 2 0) 0 255 ∧
      0 ≤ (handleLED st largs).1.ledR ∧ (handleLED st largs).1.ledR ≤ 255 ∧
      0 ≤ (handleLED st largs).1.ledG ∧ (handleLED st largs).1.ledG ≤ 255 ∧
      0 ≤ (handleLED st largs).1.ledB ∧ (handleLED st largs).1.ledB ≤ 255) := by
  unfold handleMotor handleLED
  rw [if_pos hm, if_pos hl]
  refine ⟨⟨rfl, rfl, ?_⟩, rfl, rfl, rfl, ?_⟩
  · exact ⟨(constrain_mem _).1, (constrain_mem _).2,
      (constrain_mem _).1, (constrain_mem _).2⟩
  · exact ⟨(constrain_mem _).1, (constrain_mem _).2,
      (constrain_mem _).1, (constrain_mem _).2,
      (constrain_mem _).1, (constrain_mem _).2⟩

/-- C7 witness: the out-of-range command (-5, 999) reaches the motor pins
clamped to (0, 255), and (300, -1, 256) reaches the LED pins clamped. -/
theorem commands_clamped_witness :
    ((handleMotor ⟨0, 0, 0, 0, 0⟩ [-5, 999]).1.motorL = constrain (-5) 0 255 ∧
      (handleMotor ⟨0, 0, 0, 0, 0⟩ [-5, 999]).1.motorR = constrain 999 0 255 ∧
      0 ≤ (handleMotor ⟨0, 0, 0, 0, 0⟩ [-5, 999]).1.motorL ∧
      (handleMotor ⟨0, 0, 0, 0, 0⟩ [-5, 999]).1.motorL ≤ 255 ∧
      0 ≤ (handleMotor ⟨0, 0, 0, 0, 0⟩ [-5, 999]).1.motorR ∧
      (handleMotor ⟨0, 0, 0, 0, 0⟩ [-5, 999]).1.motorR ≤ 255) ∧
    ((handleLED ⟨0, 0, 0, 0, 0⟩ [300, -1, 256]).1.ledR = constrain 300 0 255 ∧
      (handleLED ⟨0, 0, 0, 0, 0⟩ [300, -1, 256]).1.ledG = constrain (-1) 0 255 ∧
      (handleLED ⟨0, 0, 0, 0, 0⟩ [300, -1, 256]).1.ledB = constrain 256 0 255 ∧
      0 ≤ (handleLED ⟨0, 0, 0, 0, 0⟩ [300, -1, 256]).1.ledR ∧
      (handleLED ⟨0, 0, 0, 0, 0⟩ [300, -1, 256]).1.ledR ≤ 255 ∧
      0 ≤ (handleLED ⟨0, 0, 0, 0, 0⟩ [300, -1, 256]).1.ledG ∧
      (handleLED ⟨0, 0, 0, 0, 0⟩ [300, -1, 256]).1.ledG ≤ 255 ∧
      0 ≤ (handleLED ⟨0, 0, 0, 0, 0⟩ [300, -1, 256]).1.ledB ∧
      (handleLED ⟨0, 0, 0, 0, 0⟩ [300, -1, 256]).1.ledB ≤ 255) :=
  commands_clamped ⟨0, 0, 0, 0, 0⟩ [-5, 999] [300, -1, 256] (by decide) (by decide)

/-- C10: handling a /motor message never changes any LED pin, and handling
a /LED message never changes any motor pin, whatever the arguments. -/
theorem handler_frame_conditions (st : RobotState) (args : List ℤ) :
    ((handleMotor st args).1.ledR = st.ledR ∧
      (handleMotor st args).1.ledG = st.ledG ∧
      (handleMotor st args).1.ledB = st.ledB) ∧
    ((handleLED st args).1.motorL = st.motorL ∧
      (handleLED st args).1.motorR = st.motorR) := by
  unfold handleMotor handleLED
  constructor
  · split <;> exact ⟨rfl, rfl, rfl⟩
  · split <;> exact ⟨rfl, rfl⟩

/-! ## Session and liveness manager (host side)

Modelled from the spec: the host controller source johnbot2_controller.py is
absent from the repository snapshot; the per-robot session table and its
operations recordSample / getCommand / checkLiveness follow spec sections 3
and 4.2 (sessions created on first report, sample and command overwritten
and recomputed on every report, stale transition with a once-per-transition
warning that leaves the stored command unchanged). -/

/-- Modelled from the spec: latest pair of sensor readings with arrival
time. -/
structure SensorSample where
  left : ℚ
  right : ℚ
  receivedAt : ℕ
deriving DecidableEq

/-- Modelled from the spec: pair of motor commands derived from the latest
sample. -/
structure MotorCommand where
  left : ℚ
  right : ℚ
deriving DecidableEq

/-- Modelled from the spec: liveness state of a created session. -/
inductive Liveness where
  | Active
  | Stale
deriving DecidableEq

/-- Modelled from the spec: per-robot session state. -/
structure RobotSession where
  sample : Option SensorSample
  command : Option MotorCommand
  lastSeen : ℕ
  live : Liveness
deriving DecidableEq

/-- Modelled from the spec: the control law packaged as a MotorCommand. -/
def controlLaw (sl sr : ℚ) : MotorCommand := ⟨ML sl sr, MR sl sr⟩

/-- Modelled from the spec: the session table, keyed by robot identity. -/
abbrev SessionTable := List (ℕ × RobotSession)

/-- Modelled from the spec: the session stored by recordSample — latest
sample, freshly recomputed command, refreshed lastSeen, marked alive. -/
def freshSession (l r : ℚ) (now : ℕ) : RobotSession :=
  { sample := some ⟨l, r, now⟩, command := some (controlLaw l r),
    lastSeen := now, live := .Active }

/-- Modelled from the spec: recordSample(identity, left, right, now) creates
the session if absent and otherwise overwrites it in place. -/
def recordSample : SessionTable → ℕ → ℚ → ℚ → ℕ → SessionTable
  | [], rid, l, r, now => [(rid, freshSession l r now)]
  | (i, s) :: rest, rid, l, r, now =>
    if i = rid then (i, freshSession l r now) :: rest
    else (i, s) :: recordSample rest rid l r now

/-- Modelled from the spec: getCommand(identity) returns the last computed
command, or absent when the session has never received a sample. -/
def getCommand (tbl : SessionTable) (rid : ℕ) : Option MotorCommand :=
  (tbl.lookup rid).bind (fun s => s.command)

/-- Modelled from the spec: liveness check of one session — on an elapsed
timeout an Active session transitions to Stale and the warning fires; a
session already Stale is left alone with no further warning. -/
def checkSession (s : RobotSession) (now timeout : ℕ) : RobotSession × Bool :=
  if timeout < now - s.lastSeen then
    match s.live with
    | .Active => ({ s with live := .Stale }, true)
    | .Stale => (s, false)
  else (s, false)

/-- Modelled from the spec: checkLiveness(now, timeout) applies the check to
every session and returns the updated table together with the identities for
which a warning was emitted. -/
def checkLiveness (tbl : SessionTable) (now timeout : ℕ) :
    SessionTable × List ℕ :=
  (tbl.map (fun p => (p.1, (checkSession p.2 now timeout).1)),
   (tbl.filter (fun p => (checkSession p.2 now timeout).2)).map (fun p => p.1))

/-- Modelled from the spec: the host operations that mutate the session
table during a run. -/
inductive HostOp where
  | record (rid : ℕ) (l r : ℚ) (now : ℕ)
  | check (now timeout : ℕ)

/-- Modelled from the spec: one host step on the session table. -/
def applyOp (tbl : SessionTable) : HostOp → SessionTable
  | .record rid l r now => recordSample tbl rid l r now
  | .check now timeout => (checkLiveness tbl now timeout).1

/-- Modelled from the spec: a run of the host starting from the empty table. -/
def run (ops : List HostOp) : SessionTable := ops.foldl applyOp []

/-! ### Helper lemmas about the session table -/

lemma lookup_recordSample_self (tbl : SessionTable) (rid : ℕ) (l r : ℚ) (now : ℕ) :
    (recordSample tbl rid l r now).lookup rid = some (freshSession l r now) := by
  induction tbl with
  | nil => simp [recordSample, List.lookup]
  | cons p rest ih =>
    obtain ⟨i, s⟩ := p
    by_cases hi : i = rid
    · subst hi
      simp [recordSample, List.lookup]
    · simp only [recordSample, if_neg hi, List.lookup]
      have hne : (rid == i) = false := by
        simp [Ne.symm hi]
      rw [hne]
      exact ih

lemma lookup_recordSample_other (tbl : SessionTable) (rid rid2 : ℕ) (l r : ℚ)
    (now : ℕ) (h : rid2 ≠ rid) :
    (recordSample tbl rid l r now).lookup rid2 = tbl.lookup rid2 := by
  induction tbl with
  | nil =>
    have hne : (rid2 == rid) = false := by simp [h]
    simp [recordSample, List.lookup, hne]
  | cons p rest ih =>
    obtain ⟨i, s⟩ := p
    by_cases hi : i = rid
    · subst hi
      have hne : (rid2 == i) = false := by simp [h]
      simp [recordSample, List.lookup, hne]
    · simp only [recordSample, if_neg hi, List.lookup]
      cases hbe : (rid2 == i)
      · exact ih
      · rfl

lemma lookup_checkLiveness (tbl : SessionTable) (now timeout rid : ℕ) :
    ((checkLiveness tbl now timeout).1).lookup rid
      = (tbl.lookup rid).map (fun s => (checkSession s now timeout).1) := by
  induction tbl with
  | nil => simp [checkLiveness, List.lookup]
  | cons p rest ih =>
    obtain ⟨i, s⟩ := p
    simp only [checkLiveness, List.map, List.lookup]
    cases hbe : (rid == i)
    · exact ih
    · rfl

lemma checkSession_preserves (s : RobotSession) (now timeout : ℕ) :
    (checkSession s now timeout).1.sample = s.sample ∧
      (checkSession s now timeout).1.command = s.command := by
  unfold checkSession
  split
  · cases s.live <;> exact ⟨rfl, rfl⟩
  · exact ⟨rfl, rfl⟩

/-- Freshness of every stored command relative to the stored sample: the
invariant of spec section 3 as a predicate on tables. -/
def CommandFresh (tbl : SessionTable) : Prop :=
  ∀ rid s, tbl.lookup rid = some s →
    ∃ sa, s.sample = some sa ∧ s.command = some (controlLaw sa.left sa.right)

lemma commandFresh_record (tbl : SessionTable) (rid : ℕ) (l r : ℚ) (now : ℕ)
    (h : CommandFresh tbl) : CommandFresh (recordSample tbl rid l r now) := by
  intro rid2 s hs
  by_cases he : rid2 = rid
  · subst he
    rw [lookup_recordSample_self] at hs
    cases hs
    exact ⟨⟨l, r, now⟩, rfl, rfl⟩
  · rw [lookup_recordSample_other tbl rid rid2 l r now he] at hs
    exact h rid2 s hs

lemma commandFresh_check (tbl : SessionTable) (now timeout : ℕ)
    (h : CommandFresh tbl) : CommandFresh (checkLiveness tbl now timeout).1 := by
  intro rid s hs
  rw [lookup_checkLiveness] at hs
  cases hl : tbl.lookup rid with
  | none => rw [hl] at hs; cases hs
  | some s0 =>
    rw [hl] at hs
    simp only [Option.map_some'] at hs
    have hs2 : (checkSession s0 now timeout).1 = s := Option.some.inj hs
    obtain ⟨sa, h1, h2⟩ := h rid s0 hl
    have hp := checkSession_preserves s0 now timeout
    exact ⟨sa, by rw [← hs2, hp.1, h1], by rw [← hs2, hp.2, h2]⟩

lemma commandFresh_applyOp (tbl : SessionTable) (op : HostOp)
    (h : CommandFresh tbl) : CommandFresh (applyOp tbl op) := by
  cases op with
  | record rid l r now => exact commandFresh_record tbl rid l r now h
  | check now timeout => exact commandFresh_check tbl now timeout h

lemma commandFresh_foldl (ops : List HostOp) (tbl : SessionTable)
    (h : CommandFresh tbl) : CommandFresh (ops.foldl applyOp tbl) := by
  induction ops generalizing tbl with
  | nil => exact h
  | cons op rest ih => exact ih _ (commandFresh_applyOp tbl op h)

lemma commandFresh_run (ops : List HostOp) : CommandFresh (run ops) := by
  rw [run]
  exact commandFresh_foldl ops [] (fun rid s hs => by cases hs)

end Johnbot2

namespace Johnbot2

/-! ### Claims about the session manager -/

/-- C8: at every point in every run of the host, the stored MotorCommand of
every session equals the control law applied to that session's own latest
SensorSample; and recordSample(rid, 10, 20, t) immediately followed by
getCommand(rid) returns the control law's output for (10, 20), never a
stale, default, or other session's value. -/
theorem command_matches_latest_sample :
    (∀ (ops : List HostOp) (rid : ℕ) (s : RobotSession),
      (run ops).lookup rid = some s →
        ∃ sa, s.sample = some sa ∧
          s.command = some (controlLaw sa.left sa.right)) ∧
    (∀ (tbl : SessionTable) (rid : ℕ) (t : ℕ),
      getCommand (recordSample tbl rid 10 20 t) rid
        = some (controlLaw 10 20)) := by
  constructor
  · exact fun ops => commandFresh_run ops
  · intro tbl rid t
    rw [getCommand, lookup_recordSample_self]
    rfl

/-- C8 witness: after the single-step run recording (10, 20) for robot 0,
robot 0's session holds the sample (10, 20) and the command computed from
it; and the round-trip on the empty table returns that command. -/
theorem command_matches_latest_sample_witness :
    (∃ sa, (freshSession 10 20 0).sample = some sa ∧
      (freshSession 10 20 0).command = some (controlLaw sa.left sa.right)) ∧
    getCommand (recordSample [] 0 10 20 0) 0 = some (controlLaw 10 20) :=
  ⟨command_matches_latest_sample.1 [.record 0 10 20 0] 0 (freshSession 10 20 0) rfl,
   command_matches_latest_sample.2 [] 0 0⟩

/-- C9: on a session whose timeout has elapsed, checkLiveness transitions
the session to Stale and warns exactly once; a second call at any later
time with no intervening sample changes nothing and warns no further, and
the stale transition leaves the session's last known command unchanged. -/
theorem stale_transition_once (rid : ℕ) (s : RobotSession)
    (now now2 timeout : ℕ) (ha : s.live = .Active)
    (ht : timeout < now - s.lastSeen) (hn : now ≤ now2) :
    checkLiveness [(rid, s)] now timeout
        = ([(rid, { s with live := .Stale })], [rid]) ∧
    checkLiveness [(rid, { s with live := .Stale })] now2 timeout
        = ([(rid, { s with live := .Stale })], []) ∧
    ({ s with live := Liveness.Stale }).command = s.command := by
  have ht2 : timeout < now2 - s.lastSeen := by omega
  refine ⟨?_, ?_, rfl⟩
  · simp [checkLiveness, checkSession, if_pos ht, ha]
  · simp [checkLiveness, checkSession, if_pos ht2]

/-- C9 witness: a session last seen at 0 and Active, checked at time 6 with
timeout 5, goes Stale with exactly one warning; the repeat check at time 7
warns nobody and changes nothing, and the stored command (none here) is
untouched. -/
theorem stale_transition_once_witness :
    checkLiveness [(0, ⟨none, none, 0, Liveness.Active⟩)] 6 5
        = ([(0, ⟨none, none, 0, Liveness.Stale⟩)], [0]) ∧
    checkLiveness [(0, ⟨none, none, 0, Liveness.Stale⟩)] 7 5
        = ([(0, ⟨none, none, 0, Liveness.Stale⟩)], []) ∧
    (⟨none, none, 0, Liveness.Stale⟩ : RobotSession).command
        = (⟨none, none, 0, Liveness.Active⟩ : RobotSession).command :=
  stale_transition_once 0 ⟨none, none, 0, Liveness.Active⟩ 6 7 5 rfl
    (by decide) (by decide)

end Johnbot2

